import Mathlib

/-
Verification of the waycap-rs hardware video encoding core.

Shallow embedding of the code under src/: the backend selection of
DynamicEncoder (src/src/encoders/dynamic_encoder.rs), the VAAPI encoder
lifecycle (src/src/encoders/vaapi_encoder.rs) and the configuration enums
(src/src/types/config.rs).  Foreign (ffmpeg / libva / crossbeam) calls are
effectful and fallible; they are embedded as explicit oracle records that
fix the outcome of each foreign call, and as an event trace recording the
externally visible effects (hardware context pair creation and destruction,
pushes into the filter source, sends on the output channel).  Panics of the
Rust code (unwrap on a missing filter graph) are embedded as the Option
none result of the corresponding operation.
-/

namespace Waycap

/-- Quality presets, translated from src/src/types/config.rs. -/
inductive QualityPreset
  | Low
  | Medium
  | High
  | Ultra
  deriving DecidableEq, Repr

/-- Modelled from the spec: GPU vendor classification returned by the capability
probe; src/waycap_egl.rs is not under src/, and spec section 3 fixes the closed
enumeration NVIDIA, AMD, INTEL, UNKNOWN. -/
inductive GpuVendor
  | NVIDIA
  | AMD
  | INTEL
  | UNKNOWN
  deriving DecidableEq, Repr

/-- Video encoder backend enumeration, translated from src/src/types/config.rs.
The H264Nvenc variant is conditionally compiled in Rust; the model keeps it and
threads the feature flag explicitly. -/
inductive VideoEncoderType
  | H264Nvenc
  | H264Vaapi
  deriving DecidableEq, Repr

/-- Modelled from the spec: the typed error of the crate; src/types/error.rs is
not under src/.  Init carries an initialization message (spec section 7), FFmpeg
wraps codec library failures converted by the question mark operator. -/
inductive WaycapError
  | Init (msg : String)
  | FFmpeg (msg : String)
  deriving DecidableEq, Repr

/-- Modelled from the spec: a raw captured frame; src/types/video_frame.rs is
not under src/.  Fields are the ones used by VaapiEncoder::process and listed in
spec section 6: optional dmabuf file descriptor, byte offset, row stride and
presentation timestamp. -/
structure RawVideoFrame where
  dmabuf_fd : Option Int
  offset : Nat
  stride : Nat
  timestamp : Int
  deriving DecidableEq, Repr

/-- Modelled from the spec: an encoded output frame; src/types/video_frame.rs is
not under src/.  Fields as used in VaapiEncoder::process lines 107 to 112. -/
structure EncodedVideoFrame where
  data : List Nat
  is_keyframe : Bool
  pts : Int
  dts : Int
  deriving DecidableEq, Repr

/-- One buffer object of an AVDRMFrameDescriptor (fd, size, format modifier). -/
structure DrmObjectDesc where
  fd : Int
  size : Nat
  format_modifier : Nat
  deriving DecidableEq, Repr

/-- One plane of a DRM layer (object index, byte offset, pitch). -/
structure DrmPlaneDesc where
  object_index : Nat
  offset : Int
  pitch : Int
  deriving DecidableEq, Repr

/-- One layer of an AVDRMFrameDescriptor. -/
structure DrmLayerDesc where
  format : Nat
  nb_planes : Nat
  planes : List DrmPlaneDesc
  deriving DecidableEq, Repr

/-- The DRM frame descriptor written through raw pointers in
VaapiEncoder::process; only the fields the code writes are modelled. -/
structure AVDRMFrameDescriptor where
  nb_objects : Nat
  objects : List DrmObjectDesc
  nb_layers : Nat
  layers : List DrmLayerDesc
  deriving DecidableEq, Repr

/-- Fourcc value of DrmFourcc::Argb8888, the ascii bytes of AR24 little endian. -/
def argb8888Fourcc : Nat := 0x34325241

/-- DRM descriptor construction from VaapiEncoder::process lines 50 to 63:
one object holding the dmabuf fd, one layer with one plane whose offset and
pitch come from the raw frame. -/
def buildDrmDescriptor (fd : Int) (offset stride : Nat) : AVDRMFrameDescriptor :=
  { nb_objects := 1
    objects := [{ fd := fd, size := 0, format_modifier := 0 }]
    nb_layers := 1
    layers := [{ format := argb8888Fourcc
                 nb_planes := 1
                 planes := [{ object_index := 0
                              offset := (offset : Int)
                              pitch := (stride : Int) }] }] }

/-- A hardware frame: DRM descriptor, dimensions taken from the encoder, and
the presentation timestamp stamped before it is pushed into the source. -/
structure HwFrame where
  desc : AVDRMFrameDescriptor
  width : Nat
  height : Nat
  pts : Option Int
  deriving DecidableEq, Repr

/-- Quantization parameter per quality preset, from
VaapiEncoder::get_encoder_params. -/
def qpValue : QualityPreset → String
  | .Low => "30"
  | .Medium => "25"
  | .High => "20"
  | .Ultra => "15"

/-- Option dictionary built by VaapiEncoder::get_encoder_params lines 329 to 348. -/
def get_encoder_params (quality : QualityPreset) : List (String × String) :=
  [("vsync", "vfr"), ("rc", "VBR"), ("qp", qpValue quality)]

/-- The opened encoder handle together with the configuration create_encoder
bakes into it; the bound hardware device and frame pool contexts live and die
with this handle (pool size 2, from create_encoder line 297). -/
structure EncoderHandle where
  width : Nat
  height : Nat
  name : String
  quality : QualityPreset
  opts : List (String × String)
  poolSize : Nat
  deriving DecidableEq, Repr

/-- The handle create_encoder returns on success, fully determined by its
arguments. -/
def mkEncoderHandle (width height : Nat) (name : String) (quality : QualityPreset) :
    EncoderHandle :=
  { width := width, height := height, name := name, quality := quality
    opts := get_encoder_params quality, poolSize := 2 }

/-- The filter graph: the names of the filters added by create_filter_graph and
the list of hardware frames pushed into the buffer source named in.  The GPU
side transformation behind the sink is a foreign effect and is driven by the
oracles below. -/
structure FilterGraph where
  names : List String
  inFrames : List HwFrame
  deriving DecidableEq, Repr

/-- An encoded packet as returned by receive_packet. -/
structure Packet where
  data : Option (List Nat)
  is_key : Bool
  pts : Option Int
  dts : Option Int
  deriving DecidableEq, Repr

/-- Outcome of the crossbeam try_send call on the bounded output channel. -/
inductive TrySendResult
  | ok
  | full
  | disconnected
  deriving DecidableEq, Repr

/-- Externally visible effects of the encoder core.  createPair and destroyPair
track the hardware device context plus frame pool context pair bound to an
encoder handle; channelSend is a successful non blocking send on the output
channel; sendFailFull and sendFailDisconnected are the two logged drop paths. -/
inductive Event
  | createPair
  | destroyPair
  | pushSource (fr : HwFrame)
  | sendFrameToEncoder
  | sendEOF
  | discardPacket
  | channelSend (fr : EncodedVideoFrame)
  | sendFailFull
  | sendFailDisconnected
  deriving DecidableEq, Repr

/-- True exactly on successful output channel sends. -/
def Event.isSend : Event → Bool
  | .channelSend _ => true
  | _ => false

/-- Oracle fixing the outcomes of the foreign calls inside create_encoder. -/
structure CreateOracle where
  codecFound : Bool
  deviceOk : Bool
  frameCtxOk : Bool
  hwInitCode : Int
  setParamsOk : Bool
  openOk : Bool
  deriving DecidableEq, Repr

/-- Oracle fixing the outcomes of the foreign calls inside create_filter_graph. -/
structure GraphOracle where
  addOk : Bool
  validateOk : Bool
  deriving DecidableEq, Repr

/-- Oracle fixing the outcomes of the foreign calls inside one process call:
whether the buffer sink yields a filtered frame, whether send_frame succeeds,
which packet receive_packet returns if any, and the try_send outcome. -/
structure FfiOracle where
  sinkYields : Bool
  sendFrameOk : Bool
  packetReady : Option Packet
  trySend : TrySendResult
  deriving DecidableEq, Repr

/-- Oracle fixing the outcomes of the foreign calls inside one drain call. -/
structure DrainOracle where
  sinkFrames : Nat
  sendFrameOk : Bool
  eofOk : Bool
  trailingPackets : Nat
  deriving DecidableEq, Repr

/-- State of VaapiEncoder, translated field by field from
src/src/encoders/vaapi_encoder.rs lines 28 to 37.  The sender half of the
channel is always present in the Rust struct and carries no state here; the
receiver half is the Option field below. -/
structure VaapiEncoder where
  encoder : Option EncoderHandle
  width : Nat
  height : Nat
  encoder_name : String
  quality : QualityPreset
  encoded_frame_recv : Option Unit
  filter_graph : Option FilterGraph
  deriving DecidableEq, Repr

/-- VaapiEncoder::create_encoder lines 265 to 327.  The pair of hardware
contexts becomes live once bound onto the encoder context; a failure of
set_parameters or open_with afterwards drops the encoder context and with it
the pair. -/
def VaapiEncoder.create_encoder (width height : Nat) (name : String)
    (quality : QualityPreset) (o : CreateOracle) :
    Except WaycapError EncoderHandle × List Event :=
  if !o.codecFound then (.error (.FFmpeg "Encoder not found"), [])
  else if !o.deviceOk then (.error (.Init "failed to create hw device"), [])
  else if !o.frameCtxOk then (.error (.Init "failed to create hw frame ctx"), [])
  else if o.hwInitCode < 0 then
    (.error (.Init ("Error trying to initialize hw frame context: " ++
      toString o.hwInitCode)), [])
  else if !o.setParamsOk then
    (.error (.FFmpeg "set_parameters failed"), [.createPair, .destroyPair])
  else if !o.openOk then
    (.error (.FFmpeg "open_with failed"), [.createPair, .destroyPair])
  else (.ok (mkEncoderHandle width height name quality), [.createPair])

/-- VaapiEncoder::create_filter_graph lines 350 to 389: adds the filters named
in, hwmap, scale and out, links them and validates the graph. -/
def VaapiEncoder.create_filter_graph (width height : Nat) (o : GraphOracle) :
    Except WaycapError FilterGraph :=
  if !o.addOk then .error (.FFmpeg "failed to add filter to graph")
  else if !o.validateOk then .error (.FFmpeg "failed to validate filter graph")
  else .ok { names := ["in", "hwmap", "scale", "out"], inFrames := [] }

/-- VaapiEncoder::new lines 245 to 263: create the encoder with the fixed name
h264_vaapi, create the bounded channel (capacity 10) whose receiver is stored
as Some, then create the filter graph.  A filter graph failure drops the local
encoder and with it the context pair. -/
def VaapiEncoder.new (width height : Nat) (quality : QualityPreset)
    (co : CreateOracle) (go : GraphOracle) :
    Except WaycapError VaapiEncoder × List Event :=
  match VaapiEncoder.create_encoder width height "h264_vaapi" quality co with
  | (.error e, ev) => (.error e, ev)
  | (.ok enc, ev) =>
    match VaapiEncoder.create_filter_graph width height go with
    | .error e => (.error e, ev ++ [.destroyPair])
    | .ok g =>
      (.ok { encoder := some enc, width := width, height := height
             encoder_name := "h264_vaapi", quality := quality
             encoded_frame_recv := some (), filter_graph := some g }, ev)

/-- The transient DRM PRIME hardware frame built inside process: dimensions of
the encoder, the DRM descriptor wrapping the dmabuf, and the pts stamped from
the raw frame timestamp before the push into the source (lines 43 to 79). -/
def mkDrmFrame (enc : EncoderHandle) (frame : RawVideoFrame) (fd : Int) : HwFrame :=
  { desc := buildDrmDescriptor fd frame.offset frame.stride
    width := enc.width
    height := enc.height
    pts := some frame.timestamp }

/-- The state after the transient hardware frame was pushed into the buffer
source named in: only the list of pushed frames of the filter graph changes. -/
def pushFrame (s : VaapiEncoder) (g : FilterGraph) (fr : HwFrame) : VaapiEncoder :=
  { s with filter_graph := some { g with inFrames := g.inFrames ++ [fr] } }

/-- Packet retrieval and non blocking send, VaapiEncoder::process lines 104 to
124: if a packet with data is ready it is sent with try_send; a full or
disconnected channel is logged (the two sendFail events) and the frame dropped;
no outcome of this step is an error. -/
def packetEvents (o : FfiOracle) : List Event :=
  match o.packetReady with
  | none => []
  | some p =>
    match p.data with
    | none => []
    | some d =>
      match o.trySend with
      | .ok => [.channelSend { data := d, is_keyframe := p.is_key
                               pts := p.pts.getD 0, dts := p.dts.getD 0 }]
      | .full => [.sendFailFull]
      | .disconnected => [.sendFailDisconnected]

/-- VaapiEncoder::process lines 40 to 127.  Returns none where the Rust code
panics: the unwrap calls on the filter graph Option and on the named filter
lookups, reached only when the encoder is present and the frame carries a
dmabuf fd.  Otherwise returns the new state, the Result and the event trace. -/
def VaapiEncoder.process (s : VaapiEncoder) (frame : RawVideoFrame) (o : FfiOracle) :
    Option (VaapiEncoder × Except WaycapError Unit × List Event) :=
  match s.encoder with
  | none => some (s, .ok (), [])
  | some enc =>
    match frame.dmabuf_fd with
    | none => some (s, .ok (), packetEvents o)
    | some fd =>
      match s.filter_graph with
      | none => none
      | some g =>
        if g.names.contains "in" then
          if g.names.contains "out" then
            if o.sinkYields then
              if o.sendFrameOk then
                some (pushFrame s g (mkDrmFrame enc frame fd),
                      .ok (),
                      [.pushSource (mkDrmFrame enc frame fd), .sendFrameToEncoder] ++
                        packetEvents o)
              else
                some (pushFrame s g (mkDrmFrame enc frame fd),
                      .error (.FFmpeg "send_frame failed"),
                      [.pushSource (mkDrmFrame enc frame fd), .sendFrameToEncoder])
            else
              some (pushFrame s g (mkDrmFrame enc frame fd),
                    .ok (), [.pushSource (mkDrmFrame enc frame fd)] ++ packetEvents o)
          else none
        else none

/-- VaapiEncoder::drain lines 154 to 177.  Returns none where the Rust code
panics (unwrap on the filter graph when the encoder is present).  Forwards the
frames still buffered in the sink to the encoder, signals end of stream, then
discards every packet the encoder still produces; it never touches the output
channel and never modifies the state. -/
def VaapiEncoder.drain (s : VaapiEncoder) (o : DrainOracle) :
    Option (VaapiEncoder × Except WaycapError Unit × List Event) :=
  match s.encoder with
  | none => some (s, .ok (), [])
  | some _ =>
    match s.filter_graph with
    | none => none
    | some g =>
      if g.names.contains "out" then
        if o.sinkFrames > 0 && !o.sendFrameOk then
          some (s, .error (.FFmpeg "send_frame failed"), [.sendFrameToEncoder])
        else
          if o.eofOk then
            some (s, .ok (),
                  List.replicate o.sinkFrames Event.sendFrameToEncoder ++ [.sendEOF] ++
                    List.replicate o.trailingPackets .discardPacket)
          else
            some (s, .error (.FFmpeg "send_eof failed"),
                  List.replicate o.sinkFrames Event.sendFrameToEncoder ++ [.sendEOF])
      else none

/-- VaapiEncoder::drop_processor lines 144 to 147: take both Options.  Dropping
the encoder handle releases the bound context pair. -/
def VaapiEncoder.drop_processor (s : VaapiEncoder) : VaapiEncoder × List Event :=
  ({ s with encoder := none, filter_graph := none },
   if s.encoder.isSome then [.destroyPair] else [])

/-- VaapiEncoder::output lines 149 to 151: clone of the stored receiver. -/
def VaapiEncoder.output (s : VaapiEncoder) : Option Unit :=
  s.encoded_frame_recv

/-- VaapiEncoder::reset lines 132 to 142: drop_processor first, then recreate
the encoder and the filter graph from the stored width, height, encoder_name
and quality.  A filter graph failure drops the freshly created encoder and its
context pair. -/
def VaapiEncoder.reset (s : VaapiEncoder) (co : CreateOracle) (go : GraphOracle) :
    VaapiEncoder × Except WaycapError Unit × List Event :=
  match VaapiEncoder.create_encoder s.width s.height s.encoder_name s.quality co with
  | (.error e, ev2) => ((s.drop_processor).1, .error e, (s.drop_processor).2 ++ ev2)
  | (.ok enc, ev2) =>
    match VaapiEncoder.create_filter_graph s.width s.height go with
    | .error e =>
      ((s.drop_processor).1, .error e, (s.drop_processor).2 ++ ev2 ++ [.destroyPair])
    | .ok g =>
      ({ s with encoder := some enc, filter_graph := some g }, .ok (),
       (s.drop_processor).2 ++ ev2)

/-- Reachable states of a VaapiEncoder together with the full event history:
successful construction followed by any interleaving of process, drain,
drop_processor and reset calls that do not panic. -/
inductive ReachTrace : VaapiEncoder → List Event → Prop
  | init {w h : Nat} {q : QualityPreset} {co : CreateOracle} {go : GraphOracle}
      {s : VaapiEncoder} {ev : List Event}
      (hnew : VaapiEncoder.new w h q co go = (.ok s, ev)) : ReachTrace s ev
  | procStep {s : VaapiEncoder} {tr : List Event} {f : RawVideoFrame} {o : FfiOracle}
      {s1 : VaapiEncoder} {r : Except WaycapError Unit} {ev : List Event}
      (h : ReachTrace s tr) (hp : s.process f o = some (s1, r, ev)) :
      ReachTrace s1 (tr ++ ev)
  | drainStep {s : VaapiEncoder} {tr : List Event} {o : DrainOracle}
      {s1 : VaapiEncoder} {r : Except WaycapError Unit} {ev : List Event}
      (h : ReachTrace s tr) (hd : s.drain o = some (s1, r, ev)) :
      ReachTrace s1 (tr ++ ev)
  | dropStep {s : VaapiEncoder} {tr : List Event} (h : ReachTrace s tr) :
      ReachTrace (s.drop_processor).1 (tr ++ (s.drop_processor).2)
  | resetStep {s : VaapiEncoder} {tr : List Event} {co : CreateOracle} {go : GraphOracle}
      (h : ReachTrace s tr) :
      ReachTrace (s.reset co go).1 (tr ++ (s.reset co go).2.2)

/-- A state is reachable when some event history leads to it. -/
def Reachable (s : VaapiEncoder) : Prop := ∃ tr, ReachTrace s tr

/-- Contribution of one event to the number of live context pairs. -/
def Event.pairDelta : Event → Int
  | .createPair => 1
  | .destroyPair => -1
  | _ => 0

/-- One step of the live pair balance. -/
def stepBal (b : Int) (e : Event) : Int := b + e.pairDelta

/-- Live pair balance after a whole event list. -/
def balFinal (b : Int) (ev : List Event) : Int := ev.foldl stepBal b

/-- True when, starting from balance b, the running live pair balance stays
between 0 and 1 after every single event of the list. -/
def balWithin (b : Int) : List Event → Bool
  | [] => true
  | e :: es =>
    if 0 ≤ stepBal b e ∧ stepBal b e ≤ 1 then balWithin (stepBal b e) es else false

/-- An event list that neither creates nor destroys a context pair. -/
def PairFree (ev : List Event) : Prop := ∀ e ∈ ev, e.pairDelta = 0

/-- Number of live context pairs held by a state: one exactly when the encoder
handle is present. -/
def encBal (s : VaapiEncoder) : Int := if s.encoder.isSome then 1 else 0

/-- Well formedness of a stored filter graph: the named filters the unwraps in
process and drain look up are present. -/
def GraphOk (g : FilterGraph) : Prop :=
  g.names.contains "in" = true ∧ g.names.contains "out" = true

/-- The structural invariant of the encoder core: encoder handle and filter
graph are present together or absent together, stored graphs are well formed,
and the output channel receiver is present. -/
def Inv (s : VaapiEncoder) : Prop :=
  (s.encoder.isSome ↔ s.filter_graph.isSome) ∧
  (∀ g, s.filter_graph = some g → GraphOk g) ∧
  s.encoded_frame_recv = some ()

/-- The tagged union DynamicEncoder from src/src/encoders/dynamic_encoder.rs;
the Nvenc variant body lives in nvenc_encoder.rs which is not under src/ and is
kept abstract. -/
inductive DynamicEncoderModel
  | Vaapi (enc : VaapiEncoder)
  | Nvenc
  deriving DecidableEq, Repr

/-- Result of DynamicEncoder::new enriched with the observations the claims
need: which backend type was selected, how many concrete encoder constructions
were attempted, and whether the GPU vendor probe ran. -/
structure FacadeNew where
  result : Except WaycapError DynamicEncoderModel
  selected : Option VideoEncoderType
  constructions : Nat
  probed : Bool
  deriving Repr

/-- The vendor match of DynamicEncoder::new lines 39 to 55; nvencFeature models
the nvenc cfg feature of the build. -/
def selectVendorNew (nvencFeature : Bool) : GpuVendor → Except WaycapError VideoEncoderType
  | .NVIDIA => .ok (if nvencFeature then .H264Nvenc else .H264Vaapi)
  | .AMD => .ok .H264Vaapi
  | .INTEL => .ok .H264Vaapi
  | .UNKNOWN => .error (.Init "Unknown/Unimplemented GPU vendor")

/-- Construction of the chosen concrete encoder, DynamicEncoder::new lines 58
to 66.  Modelled from the spec: the NvencEncoder constructor body
(src/encoders/nvenc_encoder.rs is not under src/) is abstracted by the nvencOk
flag; the Vaapi branch runs the embedded VaapiEncoder::new. -/
def constructBackend (t : VideoEncoderType) (probed : Bool) (nvencOk : Bool)
    (width height : Nat) (q : QualityPreset) (co : CreateOracle) (go : GraphOracle) :
    FacadeNew :=
  match t with
  | .H264Nvenc =>
    { result := if nvencOk then .ok .Nvenc else .error (.Init "nvenc init failed")
      selected := some t, constructions := 1, probed := probed }
  | .H264Vaapi =>
    match VaapiEncoder.new width height q co go with
    | (.ok e, _) =>
      { result := .ok (.Vaapi e), selected := some t, constructions := 1, probed := probed }
    | (.error er, _) =>
      { result := .error er, selected := some t, constructions := 1, probed := probed }

/-- DynamicEncoder::new lines 28 to 67: honor a requested backend without
probing; otherwise probe the vendor (probe is the outcome of EglContext::new
plus get_gpu_vendor, an external collaborator per spec section 1) and select
per selectVendorNew. -/
def DynamicEncoder.new (nvencFeature : Bool) (requested : Option VideoEncoderType)
    (probe : Except WaycapError GpuVendor) (nvencOk : Bool)
    (width height : Nat) (q : QualityPreset) (co : CreateOracle) (go : GraphOracle) :
    FacadeNew :=
  match requested with
  | some t => constructBackend t false nvencOk width height q co go
  | none =>
    match probe with
    | .error e => { result := .error e, selected := none, constructions := 0, probed := true }
    | .ok v =>
      match selectVendorNew nvencFeature v with
      | .error e =>
        { result := .error e, selected := none, constructions := 0, probed := true }
      | .ok t => constructBackend t true nvencOk width height q co go

/-- Media type of the SPA format object. -/
inductive SpaMediaType
  | Video
  deriving DecidableEq, Repr

/-- Media subtype of the SPA format object. -/
inductive SpaMediaSubtype
  | Raw
  deriving DecidableEq, Repr

/-- Pixel formats advertised by the SPA format object. -/
inductive SpaVideoFormat
  | NV12
  | I420
  | BGRA
  | BGRx
  deriving DecidableEq, Repr

/-- A SPA rectangle (width and height). -/
structure SpaRectangle where
  width : Nat
  height : Nat
  deriving DecidableEq, Repr

/-- A SPA fraction (numerator and denominator). -/
structure SpaFraction where
  num : Nat
  denom : Nat
  deriving DecidableEq, Repr

/-- The pod object built by get_spa_definition, field by field. -/
structure SpaFormatObject where
  mediaType : SpaMediaType
  mediaSubtype : SpaMediaSubtype
  videoModifier : Int
  formats : List SpaVideoFormat
  sizeDefault : SpaRectangle
  sizeMin : SpaRectangle
  sizeMax : SpaRectangle
  framerateDefault : SpaFraction
  framerateMin : SpaFraction
  framerateMax : SpaFraction
  deriving DecidableEq, Repr

/-- VaapiEncoder::get_spa_definition lines 183 to 242, constants transcribed
from the pod object macro. -/
def VaapiEncoder.get_spa_definition : Except WaycapError SpaFormatObject :=
  .ok { mediaType := .Video
        mediaSubtype := .Raw
        videoModifier := 0
        formats := [.NV12, .I420, .BGRA, .BGRx]
        sizeDefault := { width := 2560, height := 1440 }
        sizeMin := { width := 1, height := 1 }
        sizeMax := { width := 4096, height := 4096 }
        framerateDefault := { num := 240, denom := 1 }
        framerateMin := { num := 0, denom := 1 }
        framerateMax := { num := 244, denom := 1 } }

/-- DynamicEncoder::get_spa_definition lines 139 to 158, transcribed
independently of the construction path.  Modelled from the spec: the Nvenc
variant answer (nvenc_encoder.rs is not under src/) is the abstract nvencSpa
argument. -/
def DynamicEncoder.get_spa_definition (nvencFeature : Bool)
    (probe : Except WaycapError GpuVendor)
    (nvencSpa : Except WaycapError SpaFormatObject) : Except WaycapError SpaFormatObject :=
  match probe with
  | .error e => .error e
  | .ok .NVIDIA => if nvencFeature then nvencSpa else VaapiEncoder.get_spa_definition
  | .ok .AMD => VaapiEncoder.get_spa_definition
  | .ok .INTEL => VaapiEncoder.get_spa_definition
  | .ok .UNKNOWN => .error (.Init "Unknown/Unimplemented GPU vendor")

/-- Oracle where every foreign call of create_encoder succeeds. -/
def coOK : CreateOracle :=
  { codecFound := true, deviceOk := true, frameCtxOk := true
    hwInitCode := 0, setParamsOk := true, openOk := true }

/-- Oracle where every foreign call of create_filter_graph succeeds. -/
def goOK : GraphOracle := { addOk := true, validateOk := true }

/-- The graph create_filter_graph returns on success. -/
def gReady : FilterGraph := { names := ["in", "hwmap", "scale", "out"], inFrames := [] }

/-- A concrete encoder handle at 1920 by 1080, medium quality. -/
def encReady : EncoderHandle := mkEncoderHandle 1920 1080 "h264_vaapi" QualityPreset.Medium

/-- The state VaapiEncoder::new returns at 1920 by 1080, medium quality, with
all foreign calls succeeding. -/
def sReady : VaapiEncoder :=
  { encoder := some encReady, width := 1920, height := 1080
    encoder_name := "h264_vaapi", quality := QualityPreset.Medium
    encoded_frame_recv := some (), filter_graph := some gReady }

/-- A concrete raw frame with a dmabuf descriptor. -/
def frameDma : RawVideoFrame :=
  { dmabuf_fd := some 7, offset := 0, stride := 7680, timestamp := 42 }

/-- A concrete encoded packet with data. -/
def packetC : Packet := { data := some [1, 2, 3], is_key := true, pts := some 42, dts := some 41 }

/-- A process oracle whose try_send finds the channel full. -/
def oFull : FfiOracle :=
  { sinkYields := true, sendFrameOk := true, packetReady := some packetC, trySend := .full }

/-- A process oracle whose try_send succeeds. -/
def oOkSend : FfiOracle :=
  { sinkYields := true, sendFrameOk := true, packetReady := some packetC, trySend := .ok }

/-- A drain oracle with two buffered frames and three trailing packets. -/
def doOK : DrainOracle :=
  { sinkFrames := 2, sendFrameOk := true, eofOk := true, trailingPackets := 3 }

/-! Helper lemmas about the embedded operations. -/

theorem create_encoder_cases (w h : Nat) (name : String) (q : QualityPreset)
    (co : CreateOracle) :
    (∃ e, VaapiEncoder.create_encoder w h name q co = (.error e, [])) ∨
    (∃ e, VaapiEncoder.create_encoder w h name q co =
      (.error e, [.createPair, .destroyPair])) ∨
    VaapiEncoder.create_encoder w h name q co =
      (.ok (mkEncoderHandle w h name q), [.createPair]) := by
  unfold VaapiEncoder.create_encoder
  split
  · exact Or.inl ⟨_, rfl⟩
  split
  · exact Or.inl ⟨_, rfl⟩
  split
  · exact Or.inl ⟨_, rfl⟩
  split
  · exact Or.inl ⟨_, rfl⟩
  split
  · exact Or.inr (Or.inl ⟨_, rfl⟩)
  split
  · exact Or.inr (Or.inl ⟨_, rfl⟩)
  exact Or.inr (Or.inr rfl)

theorem create_filter_graph_cases (w h : Nat) (go : GraphOracle) :
    (∃ e, VaapiEncoder.create_filter_graph w h go = .error e) ∨
    VaapiEncoder.create_filter_graph w h go = .ok gReady := by
  unfold VaapiEncoder.create_filter_graph
  split
  · exact Or.inl ⟨_, rfl⟩
  split
  · exact Or.inl ⟨_, rfl⟩
  exact Or.inr rfl

theorem new_cases (w h : Nat) (q : QualityPreset) (co : CreateOracle) (go : GraphOracle) :
    (∃ e ev, VaapiEncoder.new w h q co go = (.error e, ev)) ∨
    VaapiEncoder.new w h q co go =
      (.ok { encoder := some (mkEncoderHandle w h "h264_vaapi" q), width := w, height := h
             encoder_name := "h264_vaapi", quality := q
             encoded_frame_recv := some (), filter_graph := some gReady },
       [Event.createPair]) := by
  unfold VaapiEncoder.new
  rcases create_encoder_cases w h "h264_vaapi" q co with ⟨e, he⟩ | ⟨e, he⟩ | he <;> rw [he]
  · exact Or.inl ⟨_, _, rfl⟩
  · exact Or.inl ⟨_, _, rfl⟩
  · rcases create_filter_graph_cases w h go with ⟨e, hg⟩ | hg <;> rw [hg]
    · exact Or.inl ⟨_, _, rfl⟩
    · exact Or.inr rfl

theorem new_ok_shape {w h : Nat} {q : QualityPreset} {co : CreateOracle} {go : GraphOracle}
    {s : VaapiEncoder} {ev : List Event}
    (hnew : VaapiEncoder.new w h q co go = (.ok s, ev)) :
    s = { encoder := some (mkEncoderHandle w h "h264_vaapi" q), width := w, height := h
          encoder_name := "h264_vaapi", quality := q
          encoded_frame_recv := some (), filter_graph := some gReady } ∧
    ev = [Event.createPair] := by
  rcases new_cases w h q co go with ⟨e, ev0, he⟩ | he
  · rw [he] at hnew
    simp at hnew
  · rw [he] at hnew
    simp only [Prod.mk.injEq, Except.ok.injEq] at hnew
    exact ⟨hnew.1.symm, hnew.2.symm⟩

theorem gReady_ok : GraphOk gReady := by
  constructor <;> decide

theorem packetEvents_pairFree (o : FfiOracle) : PairFree (packetEvents o) := by
  intro e he
  unfold packetEvents at he
  split at he
  · simp at he
  split at he
  · simp at he
  split at he <;> simp at he <;> subst he <;> rfl

theorem packetEvents_cases (o : FfiOracle) :
    packetEvents o = [] ∨
    (∃ f, packetEvents o = [Event.channelSend f]) ∨
    packetEvents o = [Event.sendFailFull] ∨
    packetEvents o = [Event.sendFailDisconnected] := by
  unfold packetEvents
  split
  · exact Or.inl rfl
  split
  · exact Or.inl rfl
  split
  · exact Or.inr (Or.inl ⟨_, rfl⟩)
  · exact Or.inr (Or.inr (Or.inl rfl))
  · exact Or.inr (Or.inr (Or.inr rfl))

theorem pairFree_append {l1 l2 : List Event} (h1 : PairFree l1) (h2 : PairFree l2) :
    PairFree (l1 ++ l2) := by
  intro e he
  rcases List.mem_append.mp he with h | h
  · exact h1 e h
  · exact h2 e h

theorem process_shape {s : VaapiEncoder} {f : RawVideoFrame} {o : FfiOracle}
    {s1 : VaapiEncoder} {r : Except WaycapError Unit} {ev : List Event}
    (hp : s.process f o = some (s1, r, ev)) :
    s1.encoder = s.encoder ∧
    s1.encoded_frame_recv = s.encoded_frame_recv ∧
    (s1.filter_graph.isSome ↔ s.filter_graph.isSome) ∧
    (∀ g1, s1.filter_graph = some g1 → ∃ g, s.filter_graph = some g ∧ g1.names = g.names) ∧
    PairFree ev := by
  unfold VaapiEncoder.process at hp
  split at hp
  · simp only [Option.some.injEq, Prod.mk.injEq] at hp
    obtain ⟨h1, _, h3⟩ := hp
    subst h1; subst h3
    exact ⟨rfl, rfl, Iff.rfl, fun g1 hg1 => ⟨g1, hg1, rfl⟩, fun e he => by simp at he⟩
  · split at hp
    · simp only [Option.some.injEq, Prod.mk.injEq] at hp
      obtain ⟨h1, _, h3⟩ := hp
      subst h1; subst h3
      exact ⟨rfl, rfl, Iff.rfl, fun g1 hg1 => ⟨g1, hg1, rfl⟩, packetEvents_pairFree o⟩
    · rename_i enc henc fd hfd
      split at hp
      · exact absurd hp (by simp)
      · rename_i g hfg
        split at hp
        · split at hp
          · split at hp
            · split at hp
              · simp only [Option.some.injEq, Prod.mk.injEq] at hp
                obtain ⟨h1, _, h3⟩ := hp
                subst h1; subst h3
                refine ⟨rfl, rfl, by simp [pushFrame, hfg], ?_, ?_⟩
                · intro g1 hg1
                  simp only [pushFrame, Option.some.injEq] at hg1
                  exact ⟨g, hfg, by rw [← hg1]⟩
                · refine pairFree_append ?_ (packetEvents_pairFree o)
                  intro e he
                  simp only [List.mem_cons, List.not_mem_nil, or_false] at he
                  rcases he with he | he <;> subst he <;> rfl
              · simp only [Option.some.injEq, Prod.mk.injEq] at hp
                obtain ⟨h1, _, h3⟩ := hp
                subst h1; subst h3
                refine ⟨rfl, rfl, by simp [pushFrame, hfg], ?_, ?_⟩
                · intro g1 hg1
                  simp only [pushFrame, Option.some.injEq] at hg1
                  exact ⟨g, hfg, by rw [← hg1]⟩
                · intro e he
                  simp only [List.mem_cons, List.not_mem_nil, or_false] at he
                  rcases he with he | he <;> subst he <;> rfl
            · simp only [Option.some.injEq, Prod.mk.injEq] at hp
              obtain ⟨h1, _, h3⟩ := hp
              subst h1; subst h3
              refine ⟨rfl, rfl, by simp [pushFrame, hfg], ?_, ?_⟩
              · intro g1 hg1
                simp only [pushFrame, Option.some.injEq] at hg1
                exact ⟨g, hfg, by rw [← hg1]⟩
              · refine pairFree_append ?_ (packetEvents_pairFree o)
                intro e he
                simp only [List.mem_cons, List.not_mem_nil, or_false] at he
                subst he
                rfl
          · exact absurd hp (by simp)
        · exact absurd hp (by simp)

theorem drain_shape {s : VaapiEncoder} {o : DrainOracle}
    {s1 : VaapiEncoder} {r : Except WaycapError Unit} {ev : List Event}
    (hd : s.drain o = some (s1, r, ev)) :
    s1 = s ∧ PairFree ev ∧ ev.filter Event.isSend = [] := by
  unfold VaapiEncoder.drain at hd
  split at hd
  · simp only [Option.some.injEq, Prod.mk.injEq] at hd
    obtain ⟨h1, _, h3⟩ := hd
    subst h1; subst h3
    exact ⟨rfl, fun e he => by simp at he, rfl⟩
  · split at hd
    · exact absurd hd (by simp)
    · split at hd
      · split at hd
        · simp only [Option.some.injEq, Prod.mk.injEq] at hd
          obtain ⟨h1, _, h3⟩ := hd
          subst h1; subst h3
          refine ⟨rfl, ?_, rfl⟩
          intro e he
          simp only [List.mem_cons, List.not_mem_nil, or_false] at he
          subst he; rfl
        · split at hd
          · simp only [Option.some.injEq, Prod.mk.injEq] at hd
            obtain ⟨h1, _, h3⟩ := hd
            subst h1; subst h3
            constructor
            · rfl
            constructor
            · intro e he
              simp only [List.append_assoc, List.mem_append, List.mem_cons,
                List.not_mem_nil, or_false, List.eq_of_mem_replicate] at he
              rcases he with he | he | he
              · rw [List.eq_of_mem_replicate he]; rfl
              · subst he; rfl
              · rw [List.eq_of_mem_replicate he]; rfl
            · rw [List.filter_append, List.filter_append]
              rw [List.filter_eq_nil_iff.mpr, List.filter_eq_nil_iff.mpr, List.filter_eq_nil_iff.mpr]
              · rfl
              · intro a ha
                rw [List.eq_of_mem_replicate ha]; simp [Event.isSend]
              · intro a ha
                simp only [List.mem_cons, List.not_mem_nil, or_false] at ha
                subst ha; simp [Event.isSend]
              · intro a ha
                rw [List.eq_of_mem_replicate ha]; simp [Event.isSend]
          · simp only [Option.some.injEq, Prod.mk.injEq] at hd
            obtain ⟨h1, _, h3⟩ := hd
            subst h1; subst h3
            constructor
            · rfl
            constructor
            · intro e he
              simp only [List.mem_append, List.mem_cons, List.not_mem_nil, or_false] at he
              rcases he with he | he
              · rw [List.eq_of_mem_replicate he]; rfl
              · subst he; rfl
            · rw [List.filter_append]
              rw [List.filter_eq_nil_iff.mpr, List.filter_eq_nil_iff.mpr]
              · rfl
              · intro a ha
                simp only [List.mem_cons, List.not_mem_nil, or_false] at ha
                subst ha; simp [Event.isSend]
              · intro a ha
                rw [List.eq_of_mem_replicate ha]; simp [Event.isSend]
      · exact absurd hd (by simp)

theorem drop_fields (s : VaapiEncoder) :
    (s.drop_processor).1.encoder = none ∧
    (s.drop_processor).1.filter_graph = none ∧
    (s.drop_processor).1.encoded_frame_recv = s.encoded_frame_recv ∧
    (s.drop_processor).1.width = s.width ∧
    (s.drop_processor).1.height = s.height ∧
    (s.drop_processor).1.encoder_name = s.encoder_name ∧
    (s.drop_processor).1.quality = s.quality := by
  unfold VaapiEncoder.drop_processor
  exact ⟨rfl, rfl, rfl, rfl, rfl, rfl, rfl⟩

theorem drop_events (s : VaapiEncoder) :
    (s.drop_processor).2 = if s.encoder.isSome then [Event.destroyPair] else [] := rfl

theorem reset_shape (s : VaapiEncoder) (co : CreateOracle) (go : GraphOracle) :
    ((s.reset co go).1.width = s.width ∧
     (s.reset co go).1.height = s.height ∧
     (s.reset co go).1.encoder_name = s.encoder_name ∧
     (s.reset co go).1.quality = s.quality ∧
     (s.reset co go).1.encoded_frame_recv = s.encoded_frame_recv) ∧
    (((s.reset co go).1.encoder = none ∧ (s.reset co go).1.filter_graph = none ∧
      ∃ e, (s.reset co go).2.1 = .error e) ∨
     ((s.reset co go).1.encoder =
        some (mkEncoderHandle s.width s.height s.encoder_name s.quality) ∧
      (s.reset co go).1.filter_graph = some gReady ∧
      (s.reset co go).2.1 = .ok ())) := by
  unfold VaapiEncoder.reset
  rcases create_encoder_cases s.width s.height s.encoder_name s.quality co with
    ⟨e, he⟩ | ⟨e, he⟩ | he <;> rw [he] <;> dsimp only
  · exact ⟨⟨(drop_fields s).2.2.2.1, (drop_fields s).2.2.2.2.1, (drop_fields s).2.2.2.2.2.1,
      (drop_fields s).2.2.2.2.2.2, (drop_fields s).2.2.1⟩,
      Or.inl ⟨(drop_fields s).1, (drop_fields s).2.1, e, rfl⟩⟩
  · exact ⟨⟨(drop_fields s).2.2.2.1, (drop_fields s).2.2.2.2.1, (drop_fields s).2.2.2.2.2.1,
      (drop_fields s).2.2.2.2.2.2, (drop_fields s).2.2.1⟩,
      Or.inl ⟨(drop_fields s).1, (drop_fields s).2.1, e, rfl⟩⟩
  · rcases create_filter_graph_cases s.width s.height go with ⟨e, hg⟩ | hg <;> rw [hg] <;> dsimp only
    · exact ⟨⟨(drop_fields s).2.2.2.1, (drop_fields s).2.2.2.2.1, (drop_fields s).2.2.2.2.2.1,
        (drop_fields s).2.2.2.2.2.2, (drop_fields s).2.2.1⟩,
        Or.inl ⟨(drop_fields s).1, (drop_fields s).2.1, e, rfl⟩⟩
    · exact ⟨⟨rfl, rfl, rfl, rfl, rfl⟩, Or.inr ⟨rfl, rfl, rfl⟩⟩

theorem reset_events (s : VaapiEncoder) (co : CreateOracle) (go : GraphOracle) :
    (s.reset co go).2.2 = (s.drop_processor).2 ++
      ((s.reset co go).2.2).drop ((s.drop_processor).2).length := by
  unfold VaapiEncoder.reset
  rcases create_encoder_cases s.width s.height s.encoder_name s.quality co with
    ⟨e, he⟩ | ⟨e, he⟩ | he <;> rw [he] <;> dsimp only
  · simp
  · simp
  · rcases create_filter_graph_cases s.width s.height go with ⟨e, hg⟩ | hg <;> rw [hg] <;>
      dsimp only <;> simp

theorem new_ok_inv {w h : Nat} {q : QualityPreset} {co : CreateOracle} {go : GraphOracle}
    {s : VaapiEncoder} {ev : List Event}
    (hnew : VaapiEncoder.new w h q co go = (.ok s, ev)) : Inv s := by
  obtain ⟨hs, _⟩ := new_ok_shape hnew
  subst hs
  refine ⟨by simp, ?_, rfl⟩
  intro g hg
  simp only [Option.some.injEq] at hg
  subst hg
  exact gReady_ok

theorem process_inv {s : VaapiEncoder} {f : RawVideoFrame} {o : FfiOracle}
    {s1 : VaapiEncoder} {r : Except WaycapError Unit} {ev : List Event}
    (hI : Inv s) (hp : s.process f o = some (s1, r, ev)) : Inv s1 := by
  obtain ⟨he, hr, hfiff, hnames, _⟩ := process_shape hp
  refine ⟨by rw [he, hfiff]; exact hI.1, ?_, by rw [hr]; exact hI.2.2⟩
  intro g1 hg1
  obtain ⟨g, hg, hn⟩ := hnames g1 hg1
  have hok := hI.2.1 g hg
  exact ⟨by rw [hn]; exact hok.1, by rw [hn]; exact hok.2⟩

theorem drop_inv (s : VaapiEncoder) (hI : Inv s) : Inv (s.drop_processor).1 := by
  refine ⟨?_, ?_, ?_⟩
  · rw [(drop_fields s).1, (drop_fields s).2.1]
    exact Iff.rfl
  · intro g hg
    rw [(drop_fields s).2.1] at hg
    cases hg
  · rw [(drop_fields s).2.2.1]
    exact hI.2.2

theorem reset_inv {s : VaapiEncoder} {co : CreateOracle} {go : GraphOracle}
    (hI : Inv s) : Inv ((s.reset co go).1) := by
  obtain ⟨⟨_, _, _, _, hrecv⟩, hcase⟩ := reset_shape s co go
  rcases hcase with ⟨he, hf, _⟩ | ⟨he, hf, _⟩
  · refine ⟨by rw [he, hf]; exact Iff.rfl, ?_, by rw [hrecv]; exact hI.2.2⟩
    intro g hg
    rw [hf] at hg
    cases hg
  · refine ⟨by rw [he, hf]; simp, ?_, by rw [hrecv]; exact hI.2.2⟩
    intro g hg
    rw [hf] at hg
    simp only [Option.some.injEq] at hg
    subst hg
    exact gReady_ok

theorem reachTrace_inv {s : VaapiEncoder} {tr : List Event}
    (h : ReachTrace s tr) : Inv s := by
  induction h with
  | init hnew => exact new_ok_inv hnew
  | procStep h hp ih => exact process_inv ih hp
  | drainStep h hd ih => exact (drain_shape hd).1.symm ▸ ih
  | dropStep h ih => exact drop_inv _ ih
  | resetStep h ih => exact reset_inv ih

theorem reachable_inv {s : VaapiEncoder} (h : Reachable s) : Inv s := by
  obtain ⟨tr, htr⟩ := h
  exact reachTrace_inv htr

theorem inv_process_isSome {s : VaapiEncoder} (hI : Inv s)
    (f : RawVideoFrame) (o : FfiOracle) : (s.process f o).isSome = true := by
  unfold VaapiEncoder.process
  cases henc : s.encoder with
  | none => rfl
  | some enc =>
    cases hfd : f.dmabuf_fd with
    | none => rfl
    | some fd =>
      have hes : s.encoder.isSome = true := by rw [henc]; rfl
      have hfs : s.filter_graph.isSome = true := hI.1.mp hes
      obtain ⟨g, hg⟩ := Option.isSome_iff_exists.mp hfs
      rw [hg]
      dsimp only
      obtain ⟨hin, hout⟩ := hI.2.1 g hg
      simp only [hin, hout, eq_self_iff_true, if_true]
      split
      · split
        · rfl
        · rfl
      · rfl

theorem inv_drain_isSome {s : VaapiEncoder} (hI : Inv s) (o : DrainOracle) :
    (s.drain o).isSome = true := by
  unfold VaapiEncoder.drain
  cases henc : s.encoder with
  | none => rfl
  | some enc =>
    cases hfd : s.filter_graph with
    | none =>
      have hes : s.encoder.isSome = true := by rw [henc]; rfl
      have hfs : s.filter_graph.isSome = true := hI.1.mp hes
      rw [hfd] at hfs
      cases hfs
    | some g =>
      dsimp only
      obtain ⟨_, hout⟩ := hI.2.1 g hfd
      simp only [hout, eq_self_iff_true, if_true]
      split
      · rfl
      · split
        · rfl
        · rfl

theorem balFinal_cons (b : Int) (e : Event) (l : List Event) :
    balFinal b (e :: l) = balFinal (stepBal b e) l := rfl

theorem balFinal_append (b : Int) (l1 l2 : List Event) :
    balFinal b (l1 ++ l2) = balFinal (balFinal b l1) l2 := by
  simp [balFinal]

theorem balWithin_append (b : Int) (l1 l2 : List Event) :
    balWithin b (l1 ++ l2) = (balWithin b l1 && balWithin (balFinal b l1) l2) := by
  induction l1 generalizing b with
  | nil => simp [balWithin, balFinal]
  | cons e es ih =>
    simp only [List.cons_append, balWithin, List.append_eq]
    split
    · rw [ih, balFinal_cons]
    · simp

theorem pairFree_bal (l : List Event) : ∀ b : Int, PairFree l → 0 ≤ b → b ≤ 1 →
    balWithin b l = true ∧ balFinal b l = b := by
  induction l with
  | nil => exact fun b _ _ _ => ⟨rfl, rfl⟩
  | cons e es ih =>
    intro b hpf h0 h1
    have hd : e.pairDelta = 0 := hpf e (by simp)
    have hs : stepBal b e = b := by simp [stepBal, hd]
    have hrest : PairFree es := fun x hx => hpf x (by simp [hx])
    obtain ⟨hw, hf⟩ := ih b hrest h0 h1
    constructor
    · simp only [balWithin, hs]
      rw [if_pos ⟨h0, h1⟩]
      exact hw
    · rw [balFinal_cons, hs]
      exact hf

theorem encBal_nonneg (s : VaapiEncoder) : 0 ≤ encBal s := by
  unfold encBal
  split <;> decide

theorem encBal_le_one (s : VaapiEncoder) : encBal s ≤ 1 := by
  unfold encBal
  split <;> decide

theorem reset_bal (s : VaapiEncoder) (co : CreateOracle) (go : GraphOracle) :
    balWithin (encBal s) ((s.reset co go).2.2) = true ∧
    balFinal (encBal s) ((s.reset co go).2.2) = encBal ((s.reset co go).1) := by
  unfold VaapiEncoder.reset
  rcases create_encoder_cases s.width s.height s.encoder_name s.quality co with
    ⟨e, he⟩ | ⟨e, he⟩ | he
  · rw [he]
    dsimp only
    cases henc : s.encoder <;>
      simp [VaapiEncoder.drop_processor, henc, encBal, balWithin, balFinal, stepBal,
        Event.pairDelta]
  · rw [he]
    dsimp only
    cases henc : s.encoder <;>
      simp [VaapiEncoder.drop_processor, henc, encBal, balWithin, balFinal, stepBal,
        Event.pairDelta]
  · rw [he]
    dsimp only
    rcases create_filter_graph_cases s.width s.height go with ⟨e, hg⟩ | hg <;>
      rw [hg] <;> dsimp only <;> cases henc : s.encoder <;>
      simp [VaapiEncoder.drop_processor, henc, encBal, balWithin, balFinal, stepBal,
        Event.pairDelta]

theorem reset_events_head {s : VaapiEncoder} (co : CreateOracle) (go : GraphOracle)
    (he : s.encoder.isSome = true) :
    ((s.reset co go).2.2).head? = some Event.destroyPair := by
  unfold VaapiEncoder.reset
  rcases create_encoder_cases s.width s.height s.encoder_name s.quality co with
    ⟨e, hc⟩ | ⟨e, hc⟩ | hc
  · rw [hc]
    dsimp only
    simp [VaapiEncoder.drop_processor, he]
  · rw [hc]
    dsimp only
    simp [VaapiEncoder.drop_processor, he]
  · rw [hc]
    dsimp only
    rcases create_filter_graph_cases s.width s.height go with ⟨e, hg⟩ | hg <;>
      rw [hg] <;> dsimp only <;> simp [VaapiEncoder.drop_processor, he]

theorem reset_ok_state {s : VaapiEncoder} {co : CreateOracle} {go : GraphOracle}
    (hok : (s.reset co go).2.1 = .ok ()) :
    (s.reset co go).1.encoder =
      some (mkEncoderHandle s.width s.height s.encoder_name s.quality) ∧
    (s.reset co go).1.filter_graph = some gReady := by
  rcases (reset_shape s co go).2 with ⟨_, _, e, herr⟩ | ⟨he, hf, _⟩
  · rw [herr] at hok
    exact Except.noConfusion hok
  · exact ⟨he, hf⟩

theorem reachTrace_bal {s : VaapiEncoder} {tr : List Event}
    (h : ReachTrace s tr) :
    balWithin 0 tr = true ∧ balFinal 0 tr = encBal s := by
  induction h with
  | @init w hh q co go s ev hnew =>
    obtain ⟨hs, hev⟩ := new_ok_shape hnew
    subst hev
    subst hs
    exact ⟨by decide, rfl⟩
  | @procStep s tr f o s1 r ev h hp ih =>
    obtain ⟨hw, hf⟩ := ih
    obtain ⟨henc, _, _, _, hpf⟩ := process_shape hp
    have h0 : (0 : Int) ≤ balFinal 0 tr := by rw [hf]; exact encBal_nonneg s
    have h1 : balFinal 0 tr ≤ 1 := by rw [hf]; exact encBal_le_one s
    obtain ⟨hbw, hbf⟩ := pairFree_bal ev (balFinal 0 tr) hpf h0 h1
    constructor
    · rw [balWithin_append, hw, hbw]
      rfl
    · rw [balFinal_append, hbf, hf]
      unfold encBal
      rw [henc]
  | @drainStep s tr o s1 r ev h hd ih =>
    obtain ⟨hw, hf⟩ := ih
    obtain ⟨hstate, hpf, _⟩ := drain_shape hd
    have h0 : (0 : Int) ≤ balFinal 0 tr := by rw [hf]; exact encBal_nonneg s
    have h1 : balFinal 0 tr ≤ 1 := by rw [hf]; exact encBal_le_one s
    obtain ⟨hbw, hbf⟩ := pairFree_bal ev (balFinal 0 tr) hpf h0 h1
    constructor
    · rw [balWithin_append, hw, hbw]
      rfl
    · rw [balFinal_append, hbf, hf, hstate]
  | @dropStep s tr h ih =>
    obtain ⟨hw, hf⟩ := ih
    constructor
    · rw [balWithin_append, hw, hf]
      cases henc : s.encoder <;>
        simp [VaapiEncoder.drop_processor, henc, encBal, balWithin, stepBal,
          Event.pairDelta]
    · rw [balFinal_append, hf]
      cases henc : s.encoder <;>
        simp [VaapiEncoder.drop_processor, henc, encBal, balFinal, stepBal,
          Event.pairDelta]
  | @resetStep s tr co go h ih =>
    obtain ⟨hw, hf⟩ := ih
    obtain ⟨hbw, hbf⟩ := reset_bal s co go
    constructor
    · rw [balWithin_append, hw, hf, hbw]
      rfl
    · rw [balFinal_append, hf, hbf]

theorem packetEvents_fail {o : FfiOracle} {p : Packet} {d : List Nat}
    (hp : o.packetReady = some p) (hd : p.data = some d)
    (ht : o.trySend = .full ∨ o.trySend = .disconnected) :
    packetEvents o = [Event.sendFailFull] ∨
    packetEvents o = [Event.sendFailDisconnected] := by
  unfold packetEvents
  rw [hp]
  dsimp only
  rw [hd]
  dsimp only
  rcases ht with ht | ht <;> rw [ht]
  · exact Or.inl rfl
  · exact Or.inr rfl

theorem new_sReady :
    VaapiEncoder.new 1920 1080 QualityPreset.Medium coOK goOK =
      (.ok sReady, [Event.createPair]) := rfl

theorem process_stopped_eq {s : VaapiEncoder} (frame : RawVideoFrame) (o : FfiOracle)
    (he : s.encoder = none) :
    s.process frame o = some (s, .ok (), []) := by
  unfold VaapiEncoder.process
  rw [he]

theorem process_dmabuf_eq {s : VaapiEncoder} {enc : EncoderHandle} {g : FilterGraph}
    {frame : RawVideoFrame} {fd : Int} (o : FfiOracle)
    (he : s.encoder = some enc) (hg : s.filter_graph = some g)
    (hin : g.names.contains "in" = true) (hout : g.names.contains "out" = true)
    (hfd : frame.dmabuf_fd = some fd) :
    s.process frame o =
      (if o.sinkYields then
        (if o.sendFrameOk then
          some (pushFrame s g (mkDrmFrame enc frame fd), .ok (),
                [.pushSource (mkDrmFrame enc frame fd), .sendFrameToEncoder] ++
                  packetEvents o)
         else
          some (pushFrame s g (mkDrmFrame enc frame fd),
                .error (.FFmpeg "send_frame failed"),
                [.pushSource (mkDrmFrame enc frame fd), .sendFrameToEncoder]))
      else
        some (pushFrame s g (mkDrmFrame enc frame fd), .ok (),
              [.pushSource (mkDrmFrame enc frame fd)] ++ packetEvents o)) := by
  unfold VaapiEncoder.process
  rw [he]
  dsimp only
  rw [hfd]
  dsimp only
  rw [hg]
  dsimp only
  rw [hin, hout]
  simp

theorem process_nofd_eq {s : VaapiEncoder} {enc : EncoderHandle}
    (frame : RawVideoFrame) (o : FfiOracle)
    (he : s.encoder = some enc) (hfd : frame.dmabuf_fd = none) :
    s.process frame o = some (s, .ok (), packetEvents o) := by
  unfold VaapiEncoder.process
  rw [he]
  dsimp only
  rw [hfd]

theorem drain_ok_eq {s : VaapiEncoder} {enc : EncoderHandle} {g : FilterGraph}
    {o : DrainOracle}
    (he : s.encoder = some enc) (hg : s.filter_graph = some g)
    (hout : g.names.contains "out" = true)
    (hsf : o.sendFrameOk = true) (heof : o.eofOk = true) :
    s.drain o = some (s, .ok (),
      List.replicate o.sinkFrames Event.sendFrameToEncoder ++ [Event.sendEOF] ++
        List.replicate o.trailingPackets Event.discardPacket) := by
  unfold VaapiEncoder.drain
  rw [he]
  dsimp only
  rw [hg]
  dsimp only
  rw [hout, hsf]
  simp [heof]

/-! Claim theorems. -/

/-- Claim C1: constructing the Dynamic Encoder Facade with a requested backend
honors that backend unconditionally and runs no vendor probe; with no requested
backend, a probed NVIDIA vendor selects NVENC when the build has NVENC support
and VAAPI otherwise, AMD or INTEL selects VAAPI, and UNKNOWN fails with an
initialization error without constructing any encoder. -/
theorem C1_backend_selection (nvencFeature nvencOk : Bool) (width height : Nat)
    (q : QualityPreset) (co : CreateOracle) (go : GraphOracle)
    (probe : Except WaycapError GpuVendor) :
    (∀ t : VideoEncoderType,
      (DynamicEncoder.new nvencFeature (some t) probe nvencOk width height q co go).probed
        = false ∧
      (DynamicEncoder.new nvencFeature (some t) probe nvencOk width height q co go).selected
        = some t ∧
      (DynamicEncoder.new nvencFeature (some t) probe nvencOk width height q co
        go).constructions = 1) ∧
    ((DynamicEncoder.new nvencFeature none (.ok .NVIDIA) nvencOk width height q co
        go).selected = some (if nvencFeature then .H264Nvenc else .H264Vaapi)) ∧
    ((DynamicEncoder.new nvencFeature none (.ok .AMD) nvencOk width height q co
        go).selected = some .H264Vaapi) ∧
    ((DynamicEncoder.new nvencFeature none (.ok .INTEL) nvencOk width height q co
        go).selected = some .H264Vaapi) ∧
    (DynamicEncoder.new nvencFeature none (.ok .UNKNOWN) nvencOk width height q co go =
      { result := .error (.Init "Unknown/Unimplemented GPU vendor")
        selected := none, constructions := 0, probed := true }) := by
  refine ⟨?_, ?_, ?_, ?_, rfl⟩
  · intro t
    cases t
    · exact ⟨rfl, rfl, rfl⟩
    · rcases hv : VaapiEncoder.new width height q co go with ⟨res, ev⟩
      cases res <;> simp [DynamicEncoder.new, constructBackend, hv]
  · cases nvencFeature
    · rcases hv : VaapiEncoder.new width height q co go with ⟨res, ev⟩
      cases res <;> simp [DynamicEncoder.new, constructBackend, selectVendorNew, hv]
    · simp [DynamicEncoder.new, constructBackend, selectVendorNew]
  · rcases hv : VaapiEncoder.new width height q co go with ⟨res, ev⟩
    cases res <;> simp [DynamicEncoder.new, constructBackend, selectVendorNew, hv]
  · rcases hv : VaapiEncoder.new width height q co go with ⟨res, ev⟩
    cases res <;> simp [DynamicEncoder.new, constructBackend, selectVendorNew, hv]

/-- Claim C2 counterexample: the state reached by a successful construction
followed by drop_processor is a reachable Stopped state (encoder handle and
filter graph both absent), yet output() still returns Some, because
drop_processor does not touch the stored receiver.  This refutes the claimed
equivalence that the receiver exists only in the Ready or Draining state and
the claim that output() returns None after drop_processor. -/
theorem C2_counterexample :
    Reachable ((sReady.drop_processor).1) ∧
    ((sReady.drop_processor).1).encoder = none ∧
    ((sReady.drop_processor).1).filter_graph = none ∧
    VaapiEncoder.output ((sReady.drop_processor).1) = some () :=
  ⟨⟨[Event.createPair] ++ (sReady.drop_processor).2,
    ReachTrace.dropStep (ReachTrace.init new_sReady)⟩, rfl, rfl, rfl⟩

/-- Claim C2 as amended: in every reachable state of the Encoder Core the
Output Channel receiver returned by output() is Some; in particular it is still
Some after drop_processor puts the instance in the Stopped state, since
drop_processor releases only the encoder handle and the filter graph. -/
theorem C2_receiver_present (s : VaapiEncoder) (h : Reachable s) :
    VaapiEncoder.output s = some () := by
  have hI := reachable_inv h
  unfold VaapiEncoder.output
  exact hI.2.2

/-- Witness for the amended C2 theorem at a concrete reachable state. -/
theorem C2_receiver_present_witness :
    VaapiEncoder.output sReady = some () :=
  C2_receiver_present sReady ⟨[Event.createPair], ReachTrace.init new_sReady⟩

/-- Claim C3: when process() retrieves an encoded packet and the non blocking
send fails because the channel is full or the consumer disconnected, the frame
is dropped (no successful send event appears in the trace), the condition is
logged (the corresponding sendFail event appears), and process() still returns
Ok; the failure is never propagated and the call does not panic (it returns
some result). -/
theorem C3_send_failure_dropped (s : VaapiEncoder) (enc : EncoderHandle)
    (g : FilterGraph) (frame : RawVideoFrame) (o : FfiOracle) (p : Packet)
    (d : List Nat)
    (he : s.encoder = some enc) (hg : s.filter_graph = some g)
    (hin : g.names.contains "in" = true) (hout : g.names.contains "out" = true)
    (hsf : o.sendFrameOk = true) (hp : o.packetReady = some p)
    (hd : p.data = some d)
    (ht : o.trySend = .full ∨ o.trySend = .disconnected) :
    ∃ s1 ev, s.process frame o = some (s1, .ok (), ev) ∧
      ev.filter Event.isSend = [] ∧
      (Event.sendFailFull ∈ ev ∨ Event.sendFailDisconnected ∈ ev) := by
  have hpe := packetEvents_fail hp hd ht
  cases hfd : frame.dmabuf_fd with
  | none =>
    refine ⟨s, packetEvents o, process_nofd_eq frame o he hfd, ?_, ?_⟩
    · rcases hpe with hpe | hpe <;> rw [hpe] <;> rfl
    · rcases hpe with hpe | hpe <;> rw [hpe] <;> simp
  | some fd =>
    have heq := process_dmabuf_eq o he hg hin hout hfd
    cases hsy : o.sinkYields
    · rw [hsy] at heq
      simp only [Bool.false_eq_true, if_false] at heq
      refine ⟨_, _, heq, ?_, ?_⟩
      · rw [List.filter_append]
        rcases hpe with hpe | hpe <;> rw [hpe] <;> rfl
      · rcases hpe with hpe | hpe <;> rw [hpe] <;> simp
    · rw [hsy, hsf] at heq
      simp only [if_true] at heq
      refine ⟨_, _, heq, ?_, ?_⟩
      · rw [List.filter_append]
        rcases hpe with hpe | hpe <;> rw [hpe] <;> rfl
      · rcases hpe with hpe | hpe <;> rw [hpe] <;> simp

/-- Witness for C3 at a concrete Ready state with a full output channel. -/
theorem C3_witness :
    ∃ s1 ev, sReady.process frameDma oFull = some (s1, .ok (), ev) ∧
      ev.filter Event.isSend = [] ∧
      (Event.sendFailFull ∈ ev ∨ Event.sendFailDisconnected ∈ ev) :=
  C3_send_failure_dropped sReady encReady gReady frameDma oFull packetC [1, 2, 3]
    rfl rfl (by decide) (by decide) rfl rfl rfl (Or.inl rfl)

/-- Claim C4: a frame with a dmabuf descriptor produces a DRM frame descriptor
with exactly one buffer object, one layer and one plane; the object fd is the
frame fd, the plane offset and pitch are the frame offset and stride; the
hardware frame carries pts equal to the raw frame timestamp, and process pushes
exactly that hardware frame into the source of the filter pipeline. -/
theorem C4_drm_descriptor (s : VaapiEncoder) (enc : EncoderHandle) (g : FilterGraph)
    (frame : RawVideoFrame) (fd : Int) (o : FfiOracle)
    (he : s.encoder = some enc) (hg : s.filter_graph = some g)
    (hin : g.names.contains "in" = true) (hout : g.names.contains "out" = true)
    (hfd : frame.dmabuf_fd = some fd) :
    (buildDrmDescriptor fd frame.offset frame.stride).nb_objects = 1 ∧
    (buildDrmDescriptor fd frame.offset frame.stride).objects =
      [{ fd := fd, size := 0, format_modifier := 0 }] ∧
    (buildDrmDescriptor fd frame.offset frame.stride).nb_layers = 1 ∧
    (buildDrmDescriptor fd frame.offset frame.stride).layers =
      [{ format := argb8888Fourcc, nb_planes := 1
         planes := [{ object_index := 0, offset := (frame.offset : Int)
                      pitch := (frame.stride : Int) }] }] ∧
    (mkDrmFrame enc frame fd).pts = some frame.timestamp ∧
    ∃ r ev, s.process frame o =
      some (pushFrame s g (mkDrmFrame enc frame fd), r, ev) ∧
      Event.pushSource (mkDrmFrame enc frame fd) ∈ ev := by
  refine ⟨rfl, rfl, rfl, rfl, rfl, ?_⟩
  have heq := process_dmabuf_eq o he hg hin hout hfd
  cases hsy : o.sinkYields
  · rw [hsy] at heq
    simp only [Bool.false_eq_true, if_false] at heq
    exact ⟨_, _, heq, by simp⟩
  · rw [hsy] at heq
    simp only [if_true] at heq
    cases hsf : o.sendFrameOk
    · rw [hsf] at heq
      simp only [Bool.false_eq_true, if_false] at heq
      exact ⟨_, _, heq, by simp⟩
    · rw [hsf] at heq
      simp only [if_true] at heq
      exact ⟨_, _, heq, by simp⟩

/-- Witness for C4 at a concrete Ready state and dmabuf frame. -/
theorem C4_witness :
    (buildDrmDescriptor 7 frameDma.offset frameDma.stride).nb_objects = 1 ∧
    (buildDrmDescriptor 7 frameDma.offset frameDma.stride).objects =
      [{ fd := 7, size := 0, format_modifier := 0 }] ∧
    (buildDrmDescriptor 7 frameDma.offset frameDma.stride).nb_layers = 1 ∧
    (buildDrmDescriptor 7 frameDma.offset frameDma.stride).layers =
      [{ format := argb8888Fourcc, nb_planes := 1
         planes := [{ object_index := 0, offset := (frameDma.offset : Int)
                      pitch := (frameDma.stride : Int) }] }] ∧
    (mkDrmFrame encReady frameDma 7).pts = some frameDma.timestamp ∧
    ∃ r ev, sReady.process frameDma oOkSend =
      some (pushFrame sReady gReady (mkDrmFrame encReady frameDma 7), r, ev) ∧
      Event.pushSource (mkDrmFrame encReady frameDma 7) ∈ ev :=
  C4_drm_descriptor sReady encReady gReady frameDma 7 oOkSend
    rfl rfl (by decide) (by decide) rfl

/-- Claim C5: on a Ready instance with successful foreign calls, drain forwards
the frames still buffered in the sink to the encoder, then signals end of
stream, then discards every trailing packet; the trace contains no output
channel send, and the state is returned unchanged, so the encoder handle and
the filter pipeline stay present. -/
theorem C5_drain_discards (s : VaapiEncoder) (enc : EncoderHandle) (g : FilterGraph)
    (o : DrainOracle)
    (he : s.encoder = some enc) (hg : s.filter_graph = some g)
    (hout : g.names.contains "out" = true)
    (hsf : o.sendFrameOk = true) (heof : o.eofOk = true) :
    s.drain o = some (s, .ok (),
      List.replicate o.sinkFrames Event.sendFrameToEncoder ++ [Event.sendEOF] ++
        List.replicate o.trailingPackets Event.discardPacket) ∧
    (List.replicate o.sinkFrames Event.sendFrameToEncoder ++ [Event.sendEOF] ++
      List.replicate o.trailingPackets Event.discardPacket).filter Event.isSend = [] ∧
    s.encoder = some enc ∧ s.filter_graph = some g := by
  have heq := drain_ok_eq he hg hout hsf heof
  exact ⟨heq, (drain_shape heq).2.2, he, hg⟩

/-- Witness for C5 at a concrete Ready state. -/
theorem C5_witness :
    sReady.drain doOK = some (sReady, .ok (),
      List.replicate doOK.sinkFrames Event.sendFrameToEncoder ++ [Event.sendEOF] ++
        List.replicate doOK.trailingPackets Event.discardPacket) ∧
    (List.replicate doOK.sinkFrames Event.sendFrameToEncoder ++ [Event.sendEOF] ++
      List.replicate doOK.trailingPackets Event.discardPacket).filter Event.isSend = [] ∧
    sReady.encoder = some encReady ∧ sReady.filter_graph = some gReady :=
  C5_drain_discards sReady encReady gReady doOK rfl rfl (by decide) rfl rfl

/-- Claim C6: along every reachable history the running number of live hardware
device plus frame pool context pairs stays between 0 and 1 after every event
(never two pairs simultaneously); in a state holding an encoder the balance is
exactly 1; the trace of a reset on such a state starts by destroying the old
pair before any new pair is created; and after a successful reset the balance
is again exactly 1 (so after N successful resets exactly one pair is live). -/
theorem C6_single_context_pair (s : VaapiEncoder) (tr : List Event)
    (co : CreateOracle) (go : GraphOracle)
    (h : ReachTrace s tr) (he : s.encoder.isSome = true)
    (hok : (s.reset co go).2.1 = .ok ()) :
    balWithin 0 tr = true ∧
    balFinal 0 tr = 1 ∧
    ((s.reset co go).2.2).head? = some Event.destroyPair ∧
    balWithin 0 (tr ++ (s.reset co go).2.2) = true ∧
    balFinal 0 (tr ++ (s.reset co go).2.2) = 1 := by
  obtain ⟨hw, hf⟩ := reachTrace_bal h
  have hes : encBal s = 1 := by simp [encBal, he]
  have hb : balFinal 0 tr = 1 := by rw [hf, hes]
  obtain ⟨hrw, hrf⟩ := reset_bal s co go
  have henc1 : encBal ((s.reset co go).1) = 1 := by
    obtain ⟨hse, _⟩ := reset_ok_state hok
    simp [encBal, hse]
  refine ⟨hw, hb, reset_events_head co go he, ?_, ?_⟩
  · rw [balWithin_append, hw, hb, ← hes, hrw]
    rfl
  · rw [balFinal_append, hb]
    calc balFinal 1 ((s.reset co go).2.2)
        = balFinal (encBal s) ((s.reset co go).2.2) := by rw [hes]
      _ = encBal ((s.reset co go).1) := hrf
      _ = 1 := henc1

/-- Witness for C6 at a concrete reachable state with a successful reset. -/
theorem C6_witness :
    balWithin 0 [Event.createPair] = true ∧
    balFinal 0 [Event.createPair] = 1 ∧
    ((sReady.reset coOK goOK).2.2).head? = some Event.destroyPair ∧
    balWithin 0 ([Event.createPair] ++ (sReady.reset coOK goOK).2.2) = true ∧
    balFinal 0 ([Event.createPair] ++ (sReady.reset coOK goOK).2.2) = 1 :=
  C6_single_context_pair sReady [Event.createPair] coOK goOK
    (ReachTrace.init new_sReady) rfl rfl

/-- Claim C7: on any reachable state, drain succeeds and returns the state
unchanged; drop_processor then leaves both the encoder handle and the filter
pipeline absent, and every subsequent process call, for any frame with or
without a dmabuf descriptor, is a safe no-op: it returns Ok, does not panic,
leaves the state unchanged and emits no event (in particular nothing is sent on
the Output Channel). -/
theorem C7_stopped_noop (s : VaapiEncoder) (h : Reachable s) (od : DrainOracle) :
    (∃ r ev, s.drain od = some (s, r, ev)) ∧
    (s.drop_processor).1.encoder = none ∧
    (s.drop_processor).1.filter_graph = none ∧
    (∀ f o, ((s.drop_processor).1).process f o =
      some ((s.drop_processor).1, Except.ok (), [])) := by
  have hI := reachable_inv h
  have hs := inv_drain_isSome hI od
  obtain ⟨⟨s1, r, ev⟩, htrip⟩ := Option.isSome_iff_exists.mp hs
  have hstate := (drain_shape htrip).1
  rw [hstate] at htrip
  refine ⟨⟨r, ev, htrip⟩, (drop_fields s).1, (drop_fields s).2.1, ?_⟩
  intro f o
  exact process_stopped_eq f o (drop_fields s).1

/-- Witness for C7 at a concrete reachable Ready state. -/
theorem C7_witness :
    (∃ r ev, sReady.drain doOK = some (sReady, r, ev)) ∧
    (sReady.drop_processor).1.encoder = none ∧
    (sReady.drop_processor).1.filter_graph = none ∧
    (∀ f o, ((sReady.drop_processor).1).process f o =
      some ((sReady.drop_processor).1, Except.ok (), [])) :=
  C7_stopped_noop sReady ⟨[Event.createPair], ReachTrace.init new_sReady⟩ doOK

/-- Claim C8: a successful reset leaves the stored width, height, encoder name
and quality preset unchanged and installs an encoder handle recreated from
exactly those four stored construction time values (and the freshly rebuilt
filter graph). -/
theorem C8_reset_config (s : VaapiEncoder) (co : CreateOracle) (go : GraphOracle)
    (hok : (s.reset co go).2.1 = .ok ()) :
    (s.reset co go).1.width = s.width ∧
    (s.reset co go).1.height = s.height ∧
    (s.reset co go).1.encoder_name = s.encoder_name ∧
    (s.reset co go).1.quality = s.quality ∧
    (s.reset co go).1.encoder =
      some (mkEncoderHandle s.width s.height s.encoder_name s.quality) ∧
    (s.reset co go).1.filter_graph = some gReady := by
  obtain ⟨⟨h1, h2, h3, h4, _⟩, _⟩ := reset_shape s co go
  obtain ⟨he, hf⟩ := reset_ok_state hok
  exact ⟨h1, h2, h3, h4, he, hf⟩

/-- Witness for C8 at a concrete state with a successful reset. -/
theorem C8_witness :
    (sReady.reset coOK goOK).1.width = sReady.width ∧
    (sReady.reset coOK goOK).1.height = sReady.height ∧
    (sReady.reset coOK goOK).1.encoder_name = sReady.encoder_name ∧
    (sReady.reset coOK goOK).1.quality = sReady.quality ∧
    (sReady.reset coOK goOK).1.encoder =
      some (mkEncoderHandle sReady.width sReady.height sReady.encoder_name
        sReady.quality) ∧
    (sReady.reset coOK goOK).1.filter_graph = some gReady :=
  C8_reset_config sReady coOK goOK rfl

/-- Claim C9: the VAAPI capability query advertises media type video, exactly
the pixel formats NV12, I420, BGRA, BGRx, the resolution range 1x1 to 4096x4096
with default 2560x1440, and the framerate range 0 to 244 with default 240; and
the facade routes the query through the same vendor selection branching as
construction, an UNKNOWN vendor yielding the same initialization error. -/
theorem C9_spa_definition (nvencFeature : Bool)
    (nvencSpa : Except WaycapError SpaFormatObject) :
    (∃ o, VaapiEncoder.get_spa_definition = .ok o ∧
      o.mediaType = .Video ∧
      o.formats = [.NV12, .I420, .BGRA, .BGRx] ∧
      o.sizeMin = { width := 1, height := 1 } ∧
      o.sizeMax = { width := 4096, height := 4096 } ∧
      o.sizeDefault = { width := 2560, height := 1440 } ∧
      o.framerateMin = { num := 0, denom := 1 } ∧
      o.framerateMax = { num := 244, denom := 1 } ∧
      o.framerateDefault = { num := 240, denom := 1 }) ∧
    (∀ v : GpuVendor,
      DynamicEncoder.get_spa_definition nvencFeature (.ok v) nvencSpa =
        (match selectVendorNew nvencFeature v with
         | .error e => .error e
         | .ok .H264Nvenc => nvencSpa
         | .ok .H264Vaapi => VaapiEncoder.get_spa_definition)) ∧
    DynamicEncoder.get_spa_definition nvencFeature (.ok .UNKNOWN) nvencSpa =
      .error (.Init "Unknown/Unimplemented GPU vendor") := by
  refine ⟨⟨_, rfl, rfl, rfl, rfl, rfl, rfl, rfl, rfl, rfl⟩, ?_, rfl⟩
  intro v
  cases v <;> cases nvencFeature <;> rfl

/-- Claim C10: every reachable state satisfies the invariant that the encoder
handle is present exactly when the filter graph is present; under it, process
and drain never panic (they always return a result, so the filter graph unwrap
calls reached when the encoder is present cannot fail), and drop_processor
clears both options. -/
theorem C10_handle_graph_invariant (s : VaapiEncoder) (h : Reachable s) :
    (s.encoder.isSome ↔ s.filter_graph.isSome) ∧
    (∀ f o, (s.process f o).isSome = true) ∧
    (∀ o, (s.drain o).isSome = true) ∧
    (s.drop_processor).1.encoder = none ∧
    (s.drop_processor).1.filter_graph = none := by
  have hI := reachable_inv h
  exact ⟨hI.1, fun f o => inv_process_isSome hI f o, fun o => inv_drain_isSome hI o,
    (drop_fields s).1, (drop_fields s).2.1⟩

/-- Witness for C10 at a concrete reachable state. -/
theorem C10_witness :
    (sReady.encoder.isSome ↔ sReady.filter_graph.isSome) ∧
    (∀ f o, (sReady.process f o).isSome = true) ∧
    (∀ o, (sReady.drain o).isSome = true) ∧
    (sReady.drop_processor).1.encoder = none ∧
    (sReady.drop_processor).1.filter_graph = none :=
  C10_handle_graph_invariant sReady ⟨[Event.createPair], ReachTrace.init new_sReady⟩

end Waycap
